import Mathlib

/-!
Verification of the SOP agentic-workflow orchestration core.

The definitions below are a shallow embedding of `src/graph.py` (the
orchestration loop: `intelligent_step_selection_node`,
`llm_tool_execution_node`, the `LLMTools` dispatcher, and the
`build_workflow`/`main` driver).  The external oracle (the `ollama`
language model) is modelled as an explicit parameter: a function from the
iteration counter to the raw text it returns (or to a failure, standing
for a raised exception).  Python dictionaries produced by `json.loads`
are modelled by the `Json` inductive below; mutation of the state dict is
modelled by explicit functional state passing, which matches the net
effect of the Python code (each node returns the merged `{**state, ...}`
dictionary).
-/

namespace SopWorkflow

/-- JSON values as produced by `json.loads`.  Numbers are modelled as
integers: the orchestration core never produces or consumes fractional
numbers, and every concrete oracle payload analysed below is
integer-valued.  Python dicts are modelled as association lists in
insertion order; duplicate keys resolve to the last binding, as in
Python. -/
inductive Json where
  | null : Json
  | bool (b : Bool) : Json
  | num (n : Int) : Json
  | str (s : String) : Json
  | arr (xs : List Json) : Json
  | obj (kvs : List (String × Json)) : Json

/-- Whitespace characters skipped by the JSON grammar (and stripped by
Python `str.strip`). -/
def is_ws (c : Char) : Bool :=
  c = ' ' || c = '\t' || c = '\n' || c = '\r'

/-- Drop leading JSON whitespace. -/
def skip_ws (cs : List Char) : List Char :=
  cs.dropWhile is_ws

/-- Python `str.strip()`: remove leading and trailing whitespace. -/
def py_strip (s : String) : String :=
  String.mk (((s.toList.dropWhile is_ws).reverse.dropWhile is_ws).reverse)

/-- Decode one JSON string escape character. -/
def esc_char (e : Char) : Option Char :=
  if e = '"' then some '"'
  else if e = '\\' then some '\\'
  else if e = '/' then some '/'
  else if e = 'n' then some '\n'
  else if e = 't' then some '\t'
  else if e = 'r' then some '\r'
  else if e = 'b' then some (Char.ofNat 8)
  else if e = 'f' then some (Char.ofNat 12)
  else none

/-- Parse the body of a JSON string literal (the opening quote already
consumed); returns the decoded characters and the rest of the input. -/
def parse_jstring : List Char → Option (List Char × List Char)
  | [] => none
  | '"' :: rest => some ([], rest)
  | '\\' :: e :: rest =>
    match esc_char e with
    | none => none
    | some d => (parse_jstring rest).map (fun p => (d :: p.1, p.2))
  | ['\\'] => none
  | c :: rest => (parse_jstring rest).map (fun p => (c :: p.1, p.2))

/-- Digits to a natural number. -/
def digits_to_nat (ds : List Char) : Nat :=
  ds.foldl (fun n c => 10 * n + (c.toNat - 48)) 0

/-- Parse a run of decimal digits. -/
def parse_nat (cs : List Char) : Option (Nat × List Char) :=
  let ds := cs.takeWhile Char.isDigit
  if ds.isEmpty then none
  else some (digits_to_nat ds, cs.dropWhile Char.isDigit)

/-- Parse a JSON integer (optional minus sign followed by digits). -/
def parse_number (cs : List Char) : Option (Json × List Char) :=
  match cs with
  | '-' :: rest => (parse_nat rest).map (fun p => (Json.num (-(p.1 : Int)), p.2))
  | _ => (parse_nat cs).map (fun p => (Json.num (p.1 : Int), p.2))

mutual

/-- Recursive-descent parser for a JSON value.  The fuel argument bounds
recursion depth; one unit of fuel is spent only after at least one input
character has been consumed, so fuel `length + 1` (used by `json_loads`)
never runs out on any input. -/
def parse_value : Nat → List Char → Option (Json × List Char)
  | 0, _ => none
  | fuel + 1, cs =>
    match skip_ws cs with
    | [] => none
    | '"' :: rest => (parse_jstring rest).map (fun p => (Json.str (String.mk p.1), p.2))
    | '{' :: rest =>
      (match skip_ws rest with
       | '}' :: rest2 => some (Json.obj [], rest2)
       | rest2 => parse_members fuel rest2 [])
    | '[' :: rest =>
      (match skip_ws rest with
       | ']' :: rest2 => some (Json.arr [], rest2)
       | rest2 => parse_items fuel rest2 [])
    | 't' :: 'r' :: 'u' :: 'e' :: rest => some (Json.bool true, rest)
    | 'f' :: 'a' :: 'l' :: 's' :: 'e' :: rest => some (Json.bool false, rest)
    | 'n' :: 'u' :: 'l' :: 'l' :: rest => some (Json.null, rest)
    | cs' => parse_number cs'

/-- Parse the members of a JSON object, positioned at a key. -/
def parse_members : Nat → List Char → List (String × Json) → Option (Json × List Char)
  | 0, _, _ => none
  | fuel + 1, cs, acc =>
    match cs with
    | '"' :: rest =>
      (match parse_jstring rest with
       | none => none
       | some (key, rest2) =>
         match skip_ws rest2 with
         | ':' :: rest3 =>
           (match parse_value fuel rest3 with
            | none => none
            | some (v, rest4) =>
              match skip_ws rest4 with
              | ',' :: rest5 => parse_members fuel (skip_ws rest5) (acc ++ [(String.mk key, v)])
              | '}' :: rest5 => some (Json.obj (acc ++ [(String.mk key, v)]), rest5)
              | _ => none)
         | _ => none)
    | _ => none

/-- Parse the items of a JSON array, positioned at a value. -/
def parse_items : Nat → List Char → List Json → Option (Json × List Char)
  | 0, _, _ => none
  | fuel + 1, cs, acc =>
    match parse_value fuel cs with
    | none => none
    | some (v, rest) =>
      match skip_ws rest with
      | ',' :: rest2 => parse_items fuel rest2 (acc ++ [v])
      | ']' :: rest2 => some (Json.arr (acc ++ [v]), rest2)
      | _ => none

end

/-- Model of Python `json.loads` (on the integer fragment of JSON): the
whole input, up to surrounding whitespace, must be a single JSON value;
any other text yields a failure (`none`, standing for the raised
`json.JSONDecodeError`). -/
def json_loads (s : String) : Option Json :=
  let cs := s.toList
  match parse_value (cs.length + 1) cs with
  | some (j, rest) => if skip_ws rest = [] then some j else none
  | none => none

/-- Python dict lookup with a default (`d.get(k, default)`); duplicate
keys in the source JSON resolve to the last binding. -/
def Json.getField (kvs : List (String × Json)) (k : String) : Option Json :=
  (kvs.reverse.find? (fun p => p.1 == k)).map (fun p => p.2)

/-- Does the character list `hay` start with `needle`? -/
def starts_with : List Char → List Char → Bool
  | _, [] => true
  | [], _ :: _ => false
  | c :: cs, d :: ds => c = d && starts_with cs ds

/-- Substring containment over character lists (Python `needle in hay`). -/
def contains_sub : List Char → List Char → Bool
  | [], needle => needle.isEmpty
  | c :: rest, needle => starts_with (c :: rest) needle || contains_sub rest needle

/-- Python `needle in hay` on strings. -/
def str_contains (hay needle : String) : Bool :=
  contains_sub hay.toList needle.toList

/-- Python `str.lower()` (ASCII case folding suffices for the inputs the
code compares). -/
def lower_str (s : String) : String :=
  String.mk (s.toList.map Char.toLower)

/-- Split a character list on newline characters (Python `s.split("\n")`). -/
def split_nl : List Char → List (List Char)
  | [] => [[]]
  | c :: rest =>
    if c = '\n' then [] :: split_nl rest
    else
      match split_nl rest with
      | [] => [[c]]
      | h :: t => (c :: h) :: t

/-- SOP parsing from `intelligent_step_selection_node`:
`[s.strip() for s in sop_workflow.split("\n") if s.strip()]`. -/
def parse_sop_steps (sop : String) : List String :=
  ((split_nl sop.toList).map
      (fun cs => String.mk (((cs.dropWhile is_ws).reverse.dropWhile is_ws).reverse))).filter
    (fun s => s ≠ "")

/-! ## Data model of the tool dispatcher (`class LLMTools` in `src/graph.py`) -/

/-- One row of `LLMTools.mock_requests_db`. -/
structure RequestRec where
  request_id : Int
  status : String
  age_hours : Int
  requester_email : String
deriving DecidableEq

/-- A ticket as built by `LLMTools._create_ticket`. -/
structure Ticket where
  ticket_id : Nat
  title : String
  description : String
  priority : String
  request_id : Option Int
  status : String
  created_at : String
deriving DecidableEq

/-- A notification as built by `LLMTools._send_notification`. -/
structure Notification where
  id : Nat
  recipient : String
  subject : String
  message : String
  request_id : Option Int
  sent_at : String
  status : String
deriving DecidableEq

/-- The mutable instance state of `LLMTools`.  `mock_requests_db` is
initialised to a constant and never mutated, so it is modelled as the
constant `mock_requests_db` below. -/
structure LLMTools where
  mock_tickets : List Ticket
  mock_notifications : List Notification
deriving DecidableEq

/-- `LLMTools.__init__`: ticket and notification stores start empty. -/
def LLMTools.init : LLMTools :=
  { mock_tickets := [], mock_notifications := [] }

/-- The constant `mock_requests_db` from `LLMTools.__init__`. -/
def mock_requests_db (request_id : Int) : Option RequestRec :=
  if request_id = 101 then
    some { request_id := 101, status := "approved", age_hours := 10,
           requester_email := "user1@company.com" }
  else if request_id = 102 then
    some { request_id := 102, status := "in-progress", age_hours := 50,
           requester_email := "user2@company.com" }
  else if request_id = 103 then
    some { request_id := 103, status := "disapproved", age_hours := 80,
           requester_email := "user3@company.com" }
  else if request_id = 104 then
    some { request_id := 104, status := "disapproved", age_hours := 100,
           requester_email := "user4@company.com" }
  else none

/-- The nested `params` dictionary of an `api_call` invocation; the code
only ever reads its `request_id` key. -/
structure ApiParams where
  request_id : Option Int := none
deriving DecidableEq

/-- The `parameters` dictionary of a tool call: one optional field per
key that any handler reads (`params.get(...)` defaults are applied inside
the handlers, as in the source). -/
structure ToolParams where
  prompt : Option String := none
  context : Option String := none
  message : Option String := none
  message_type : Option String := none
  endpoint : Option String := none
  method : Option String := none
  params : ApiParams := {}
  purpose : Option String := none
  title : Option String := none
  description : Option String := none
  priority : Option String := none
  request_id : Option Int := none
  recipient : Option String := none
  subject : Option String := none
deriving DecidableEq

/-- The result dictionary returned by `LLMTools.execute_tool`, one
constructor per distinct dictionary shape in the source. -/
inductive ToolResult where
  | askUser (user_response prompt_shown timestamp : String)
  | showMessage (message_displayed message_type user_acknowledgment timestamp : String)
  | requestFound (request : RequestRec)
  | requestNotFound (request_id : Option Int)
  | unsupportedApiOp
  | unknownEndpoint (endpoint : String)
  | ticketsList (tickets : List Ticket)
  | unsupportedTicketsOp
  | ticketCreated (ticket : Ticket) (message : String)
  | notificationSent (notification : Notification) (message : String)
  | unknownTool (error : String)
deriving DecidableEq

/-- `LLMTools._generate_mock_user_response`. -/
def generate_mock_user_response (prompt : String) : String :=
  let p := lower_str prompt
  if str_contains p "request id" || str_contains p "request_id" then "102"
  else if str_contains p "email" then "user@company.com"
  else if str_contains p "reason" then "Need access for Q4 budget analysis project"
  else if str_contains p "manager" then "manager@company.com"
  else if str_contains p "confirm" || str_contains p "approve" then "Yes, I confirm"
  else if str_contains p "priority" then "high"
  else "Please proceed with the next step"

/-- `LLMTools._generate_user_acknowledgment`. -/
def generate_user_acknowledgment (message : String) : String :=
  let m := lower_str message
  if str_contains m "approved" then "Great! Thank you for the approval."
  else if str_contains m "ticket" && str_contains m "created" then
    "Thank you for creating the ticket."
  else if str_contains m "processing" then
    "Understood. I will wait for the process to complete."
  else if str_contains m "error" then
    "I see there is an issue. What should I do next?"
  else "Acknowledged. Thank you for the information."

/-- Python integer truthiness for an optional `request_id` (`None` and
`0` are falsy). -/
def py_truthy_int : Option Int → Bool
  | none => false
  | some n => n ≠ 0

/-- The `re.search(r"/requests/(\d+)", endpoint)` extraction in
`LLMTools._mock_requests_api`: the first position where `/requests/` is
followed by at least one digit yields the digit run as an integer. -/
def find_requests_id : List Char → Option Int
  | [] => none
  | c :: rest =>
    let here := c :: rest
    let needle := "/requests/".toList
    if starts_with here needle then
      let ds := (here.drop needle.length).takeWhile Char.isDigit
      if ds.isEmpty then find_requests_id rest
      else some (digits_to_nat ds : Nat)
    else find_requests_id rest

/-- `LLMTools._mock_requests_api`. -/
def LLMTools.mock_requests_api (endpoint method : String) (api_params : ApiParams) :
    ToolResult :=
  if method = "GET" then
    let rid0 := api_params.request_id
    let rid :=
      if py_truthy_int rid0 then rid0
      else
        match find_requests_id endpoint.toList with
        | some n => some n
        | none => rid0
    match rid with
    | some n =>
      if n ≠ 0 then
        match mock_requests_db n with
        | some r => ToolResult.requestFound r
        | none => ToolResult.requestNotFound (some n)
      else ToolResult.requestNotFound rid
    | none => ToolResult.requestNotFound none
  else ToolResult.unsupportedApiOp

/-- `LLMTools._mock_tickets_api`. -/
def LLMTools.mock_tickets_api (t : LLMTools) (method : String) : ToolResult :=
  if method = "GET" then ToolResult.ticketsList t.mock_tickets
  else ToolResult.unsupportedTicketsOp

/-- `LLMTools._ask_user_input`.  `now` stands for
`datetime.now().isoformat()`. -/
def LLMTools.ask_user_input (now : String) (params : ToolParams) : ToolResult :=
  let prompt := params.prompt.getD "No prompt provided"
  ToolResult.askUser (generate_mock_user_response prompt) prompt now

/-- `LLMTools._show_message_to_user`. -/
def LLMTools.show_message_to_user (now : String) (params : ToolParams) : ToolResult :=
  let message := params.message.getD "No message provided"
  let message_type := params.message_type.getD "info"
  ToolResult.showMessage message message_type (generate_user_acknowledgment message) now

/-- `LLMTools._api_call`. -/
def LLMTools.api_call (t : LLMTools) (params : ToolParams) : ToolResult :=
  let endpoint := params.endpoint.getD ""
  let method := params.method.getD "GET"
  if str_contains endpoint "/requests/" then
    LLMTools.mock_requests_api endpoint method params.params
  else if str_contains endpoint "/tickets" then
    t.mock_tickets_api method
  else ToolResult.unknownEndpoint endpoint

/-- `LLMTools._create_ticket`. -/
def LLMTools.create_ticket (t : LLMTools) (now : String) (params : ToolParams) :
    ToolResult × LLMTools :=
  let ticket_id := t.mock_tickets.length + 1
  let ticket : Ticket :=
    { ticket_id := ticket_id
      title := params.title.getD "No title"
      description := params.description.getD "No description"
      priority := params.priority.getD "medium"
      request_id := params.request_id
      status := "open"
      created_at := now }
  (ToolResult.ticketCreated ticket ("Ticket #" ++ toString ticket_id ++ " created successfully"),
    { t with mock_tickets := t.mock_tickets ++ [ticket] })

/-- `LLMTools._send_notification`. -/
def LLMTools.send_notification (t : LLMTools) (now : String) (params : ToolParams) :
    ToolResult × LLMTools :=
  let notification : Notification :=
    { id := t.mock_notifications.length + 1
      recipient := params.recipient.getD ""
      subject := params.subject.getD ""
      message := params.message.getD ""
      request_id := params.request_id
      sent_at := now
      status := "sent" }
  (ToolResult.notificationSent notification
      ("Notification sent to " ++ params.recipient.getD ""),
    { t with mock_notifications := t.mock_notifications ++ [notification] })

/-- `LLMTools.execute_tool`: the string-keyed dispatch chain.  Handlers
that do not mutate the instance return it unchanged. -/
def LLMTools.execute_tool (t : LLMTools) (now : String) (tool_name : String)
    (parameters : ToolParams) : ToolResult × LLMTools :=
  if tool_name = "ask_user_input" then (LLMTools.ask_user_input now parameters, t)
  else if tool_name = "show_message_to_user" then
    (LLMTools.show_message_to_user now parameters, t)
  else if tool_name = "api_call" then (t.api_call parameters, t)
  else if tool_name = "create_ticket" then t.create_ticket now parameters
  else if tool_name = "send_notification" then t.send_notification now parameters
  else (ToolResult.unknownTool ("Unknown tool: " ++ tool_name), t)

/-! ## Workflow state and graph nodes (`src/graph.py`) -/

/-- An entry of the global action repository (`GlobalAction` TypedDict). -/
structure GlobalAction where
  action : String
  action_type : String
  user_interaction_metadata : List String
  API : String
  params : String
deriving DecidableEq

/-- The `drive_gar` mock global action repository. -/
def drive_gar : List GlobalAction :=
  [ { action := "get_request_id", action_type := "ask_user_input",
      user_interaction_metadata := ["Prompt: Please enter the drive access request ID."],
      API := "", params := "" },
    { action := "check_request_status", action_type := "api_call",
      user_interaction_metadata := [],
      API := "GET /requests/\x7brequest_id\x7d",
      params := "\x7b \x27request_id\x27: <request_id> \x7d" },
    { action := "handle_approved", action_type := "show_message_to_user",
      user_interaction_metadata := ["Message: Drive access already approved."],
      API := "", params := "" },
    { action := "handle_in_progress_or_disapproved_under_72",
      action_type := "show_message_to_user",
      user_interaction_metadata :=
        ["Message: Request is being processed. Please check back later."],
      API := "", params := "" },
    { action := "create_reapproval_ticket", action_type := "create_ticket",
      user_interaction_metadata := [],
      API := "POST /tickets",
      params := "\x7b \x27title\x27: \x27Drive Access Re-Approval Needed\x27, \x27description\x27: \x27Initial request delayed beyond 72 hours. Requires new approval.\x27 \x7d" },
    { action := "inform_user_ticket_created", action_type := "show_message_to_user",
      user_interaction_metadata :=
        ["Message: Access request delayed. A new approval ticket has been created."],
      API := "", params := "" } ]

/-- One tool call proposed by the oracle in `llm_tool_execution_node`
(`tool_call.get("tool_name")`, `tool_call.get("parameters", {})`). -/
structure ToolCall where
  tool_name : String
  parameters : ToolParams := {}
deriving DecidableEq

/-- The record appended to `tool_results` for each executed tool call. -/
structure ToolCallRecord where
  tool_name : String
  parameters : ToolParams
  result : ToolResult
deriving DecidableEq

/-- The `observation` field of an execution-memory entry: the list of
tool result records on the success path, the string `f"Error: {e}"` on
the exception path. -/
inductive Observation where
  | results (records : List ToolCallRecord)
  | errorText (msg : String)
deriving DecidableEq

/-- An execution-memory entry (`ExecutionMemoryDict`; the `observation`
field is annotated `str` in the source but holds the tool-result list on
the success path). -/
structure ExecutionMemoryDict where
  action : String
  observation : Observation
  feedback : String
deriving DecidableEq

/-- The keys of `user_context` that `llm_tool_execution_node` writes
(`last_user_input`, `last_prompt`). -/
structure UserContext where
  last_user_input : Option String := none
  last_prompt : Option String := none
deriving DecidableEq

/-- The `tool_results` summary stored on the success path of
`llm_tool_execution_node` (`last_execution` and `reasoning`). -/
structure ToolResultsInfo where
  last_execution : List ToolCallRecord
  reasoning : String
deriving DecidableEq

/-- The `State` TypedDict threaded through the langgraph nodes.
`required_tools` is written by `intelligent_step_selection_node` (it is
not declared in the TypedDict but lives in the returned dictionary); it
is kept as raw `Json` because the code never validates it. -/
structure State where
  sop_workflow : String
  execution_memory : List ExecutionMemoryDict
  global_action_repository : List GlobalAction
  current_step : String
  available_steps : List String
  completed_steps : List String
  workflow_complete : Bool
  tool_results : Option ToolResultsInfo
  user_context : UserContext
  required_tools : Json

/-- The outcome of decoding the oracle response in
`intelligent_step_selection_node`: `fallback` when the `try` block raises
(no response, `json.loads` failure, or `.get` on a non-dict), otherwise
the sentinel/membership test on `next_step`. -/
inductive SelDecision where
  | fallback
  | complete_signal
  | adopt (step : String) (tools : Json)

/-- The body of the `try` block of `intelligent_step_selection_node`:
`json.loads(response["response"].strip())` followed by
`result.get("next_step", "")`, the `WORKFLOW_COMPLETE` sentinel test and
the membership test against `available_steps`.  `resp = none` stands for
`client.generate` raising. -/
def decode_selection (available_steps : List String) (resp : Option String) : SelDecision :=
  match resp with
  | none => SelDecision.fallback
  | some raw =>
    match json_loads (py_strip raw) with
    | some (Json.obj kvs) =>
      let next_step := (Json.getField kvs "next_step").getD (Json.str "")
      let required_tools := (Json.getField kvs "required_tools").getD (Json.arr [])
      match next_step with
      | Json.str s =>
        if s = "WORKFLOW_COMPLETE" ∨ s ∉ available_steps then SelDecision.complete_signal
        else SelDecision.adopt s required_tools
      | _ => SelDecision.complete_signal
    | _ => SelDecision.fallback

/-- The initialisation at the top of `intelligent_step_selection_node`:
when `available_steps` is empty (falsy), parse the SOP and reset
`completed_steps`. -/
def init_steps (st : State) : State :=
  if st.available_steps = [] then
    { st with available_steps := parse_sop_steps st.sop_workflow, completed_steps := [] }
  else st

/-- The fallback computation `[step for step in available_steps if step
not in completed_steps]`. -/
def remaining_steps (available_steps completed_steps : List String) : List String :=
  available_steps.filter (fun step => decide (step ∉ completed_steps))

/-- `intelligent_step_selection_node`.  `resp` is the oracle response for
this invocation (`none` = the `client.generate` call raised). -/
def intelligent_step_selection_node (resp : Option String) (st : State) : State :=
  let st := init_steps st
  if st.available_steps.length ≤ st.completed_steps.length then
    { st with workflow_complete := true }
  else
    match decode_selection st.available_steps resp with
    | SelDecision.fallback =>
      match remaining_steps st.available_steps st.completed_steps with
      | [] => { st with workflow_complete := true }
      | r :: _ =>
        { st with current_step := r, required_tools := Json.arr [],
                  workflow_complete := false }
    | SelDecision.complete_signal => { st with workflow_complete := true }
    | SelDecision.adopt s tools =>
      { st with current_step := s, required_tools := tools, workflow_complete := false }

/-- The oracle response for `llm_tool_execution_node`: either the decoded
plan (`tool_calls` and `reasoning`), or a failure standing for a raised
exception in the `try` block, carrying `str(e)`. -/
inductive ExecResp where
  | ok (tool_calls : List ToolCall) (reasoning : String)
  | fail (msg : String)

/-- The tool-execution loop of `llm_tool_execution_node`: run each call
in order through `LLMTools.execute_tool`, collecting the result records
and threading the dispatcher state and `user_context` (which is updated
after a successful `ask_user_input`). -/
def run_tool_calls (now : String) :
    LLMTools → UserContext → List ToolCall →
      List ToolCallRecord × LLMTools × UserContext
  | tools, uc, [] => ([], tools, uc)
  | tools, uc, c :: rest =>
    let r := tools.execute_tool now c.tool_name c.parameters
    let uc' :=
      if c.tool_name = "ask_user_input" then
        match r.1 with
        | ToolResult.askUser ur ps _ =>
          { uc with last_user_input := some ur, last_prompt := some ps }
        | _ => uc
      else uc
    let out := run_tool_calls now r.2 uc' rest
    ({ tool_name := c.tool_name, parameters := c.parameters, result := r.1 } :: out.1,
      out.2)

/-- A single quote character, used by the Python `repr` of a string
list. -/
def single_quote : Char := Char.ofNat 39

/-- Python `repr` of a list of strings, as interpolated into the
`feedback` f-string. -/
def py_list_repr (xs : List String) : String :=
  "[" ++ String.intercalate ", "
      (xs.map (fun s => String.mk (single_quote :: s.toList ++ [single_quote]))) ++ "]"

/-- `llm_tool_execution_node`.  A fresh `LLMTools()` dispatcher is
constructed on every invocation.  On the success path one memory entry
records the tool results; on the exception path one memory entry records
the error; both paths mark `current_step` completed if it is not already.
(The corner where the oracle returns a JSON object whose `tool_calls`
list contains non-dictionaries — raising after some calls already ran —
is not represented; every claim below concerns well-formed plans or the
full-failure path, and both append exactly one entry as here.) -/
def llm_tool_execution_node (resp : ExecResp) (now : String) (st : State) : State :=
  let current_step := st.current_step
  match resp with
  | ExecResp.ok tool_calls reasoning =>
    let out := run_tool_calls now LLMTools.init st.user_context tool_calls
    let entry : ExecutionMemoryDict :=
      { action := current_step
        observation := Observation.results out.1
        feedback := "Completed using tools: " ++
          py_list_repr (tool_calls.map (fun c => c.tool_name)) }
    let completed_steps :=
      if current_step ∈ st.completed_steps then st.completed_steps
      else st.completed_steps ++ [current_step]
    { st with execution_memory := st.execution_memory ++ [entry]
              completed_steps := completed_steps
              user_context := out.2.2
              tool_results := some { last_execution := out.1, reasoning := reasoning } }
  | ExecResp.fail msg =>
    let entry : ExecutionMemoryDict :=
      { action := current_step
        observation := Observation.errorText ("Error: " ++ msg)
        feedback := "completed_with_error" }
    let completed_steps :=
      if current_step ∈ st.completed_steps then st.completed_steps
      else st.completed_steps ++ [current_step]
    { st with execution_memory := st.execution_memory ++ [entry]
              completed_steps := completed_steps }

/-! ## The compiled graph and its bounded run (`build_workflow`, `main`) -/

/-- The oracle behaviour over a whole run: for loop iteration `k`, the
raw decision response (`sel k`), the decoded execution plan (`exec k`)
and the wall-clock reading (`now k`). -/
structure OracleBehavior where
  sel : Nat → Option String
  exec : Nat → ExecResp
  now : Nat → String

/-- The outcome of streaming the compiled graph: normal termination at
`END`, or langgraph's `GraphRecursionError` when the recursion limit is
exhausted (surfaced by `main` as a workflow failure). -/
inductive RunResult where
  | complete (st : State)
  | bound_exceeded (st : State)

/-- The state carried by a run outcome (on `bound_exceeded` the state up
to that point, which `main` can still inspect). -/
def RunResult.state : RunResult → State
  | RunResult.complete st => st
  | RunResult.bound_exceeded st => st

/-- The loop of the compiled graph: entry at
`intelligent_step_selection`, conditional edge to `END` or
`llm_tool_execution`, and the back edge to selection.  `fuel` models the
langgraph `recursion_limit`: each node execution consumes one unit, and
exhaustion raises `GraphRecursionError` (`bound_exceeded`).  The second
component of the result lists the step dispatched by each tool-execution
iteration, in order. -/
def run_from (orc : OracleBehavior) : Nat → Nat → State → RunResult × List String
  | 0, _, st => (RunResult.bound_exceeded st, [])
  | fuel + 1, k, st =>
    let st1 := intelligent_step_selection_node (orc.sel k) st
    if st1.workflow_complete then (RunResult.complete st1, [])
    else
      match fuel with
      | 0 => (RunResult.bound_exceeded st1, [])
      | fuel' + 1 =>
        let st2 := llm_tool_execution_node (orc.exec k) (orc.now k) st1
        let out := run_from orc fuel' (k + 1) st2
        (out.1, st1.current_step :: out.2)

/-- The initial state built in `main` (with a parametric SOP document;
`current_step` is absent from the initial dictionary and is modelled as
the empty string, which the code never reads before the first selection
writes it). -/
def initial_state (sop : String) : State :=
  { sop_workflow := sop
    execution_memory := []
    global_action_repository := drive_gar
    current_step := ""
    available_steps := []
    completed_steps := []
    workflow_complete := false
    tool_results := none
    user_context := {}
    required_tools := Json.arr [] }

/-- The `recursion_limit` configured in `main`. -/
def recursion_limit : Nat := 20

/-! ## Spec-side definitions

These follow the specification's words, for comparison against the code:
the balanced-object extraction of §4.4 step 3, and the Step Resolver of
§4.2 together with the repository-driven orchestrator variant of §4.5,
neither of which appears in the code under `src/`. -/

/-- Scan to the matching close brace of an already-opened object (depth
counts currently open braces), returning the consumed characters
including the final close brace. -/
def take_balanced : Nat → List Char → Option (List Char)
  | _, [] => none
  | depth, c :: rest =>
    if c = '\x7b' then (take_balanced (depth + 1) rest).map (fun t => c :: t)
    else if c = '\x7d' then
      if depth = 1 then some [c]
      else (take_balanced (depth - 1) rest).map (fun t => c :: t)
    else (take_balanced depth rest).map (fun t => c :: t)

/-- Find the first balanced brace-delimited substring. -/
def first_balanced_obj : List Char → Option (List Char)
  | [] => none
  | c :: rest =>
    if c = '\x7b' then (take_balanced 1 rest).map (fun t => c :: t)
    else first_balanced_obj rest

/-- Follows the spec's words (§4.4 step 3): "extract the first balanced
`{...}` JSON object from the raw text response via pattern search".
This definition exists only to compare the spec's described behaviour
with the code's actual `json.loads(raw.strip())`. -/
def spec_extract_first_json_object (s : String) : Option String :=
  (first_balanced_obj s.toList).map String.mk

/-- Modelled from the spec: the error raised by the Step Resolver (§4.2)
on an empty action repository.  The resolver itself is absent from
`src/` (only the repository data `drive_gar` is present), so it is
modelled from the spec's words. -/
inductive ResolutionError where
  | empty_repository
deriving DecidableEq

/-- Modelled from the spec: the Step Resolver of §4.2, absent from
`src/`.  "Fails with `ResolutionError` only if the repository is empty;
otherwise always returns a best-effort match": candidates are scored
left-to-right and only a strictly greater score replaces the current
best (first maximal entry wins).  The similarity score — the cosine of
the oracle-supplied embeddings — is an external-oracle value and is
passed in as the function `sim`. -/
def resolve_action (sim : String → String → ℚ) (step_text : String)
    (repo : List GlobalAction) : Except ResolutionError GlobalAction :=
  match repo with
  | [] => Except.error ResolutionError.empty_repository
  | a :: rest =>
    Except.ok (rest.foldl
      (fun best cand => if sim step_text best.action < sim step_text cand.action then cand else best) a)

/-- Modelled from the spec: the Decision Policy of §4.4 (the variant used
by the repository-driven orchestrator of §4.5, absent from `src/`):
completion check, empty-memory bypass to `steps[0]`, then the
extract-and-parse of the oracle response with the deterministic fallback
ladder.  `none` signals `Complete`. -/
def spec_decide (steps completed_steps : List String) (memory : List ExecutionMemoryDict)
    (resp : Option String) : Option String :=
  if steps.length ≤ completed_steps.length then none
  else if memory.isEmpty then steps.head?
  else
    let fb := (remaining_steps steps completed_steps).head?
    match resp with
    | none => fb
    | some raw =>
      match (spec_extract_first_json_object raw).bind json_loads with
      | some (Json.obj kvs) =>
        match Json.getField kvs "next_step" with
        | some (Json.str s) =>
          if s = "WORKFLOW_COMPLETE" ∨ s ∉ steps then fb else some s
        | _ => fb
      | _ => fb

/-- Modelled from the spec: the WorkflowState of the repository-driven
orchestrator variant (§4.5), absent from `src/`. -/
structure RState where
  steps : List String
  completed_steps : List String
  memory : List ExecutionMemoryDict
deriving DecidableEq

/-- Modelled from the spec: outcome of a repository-driven run — normal
completion, a fatal `ResolutionError` with the state (partial execution
history) at the failure point, or the iteration bound. -/
inductive ResolverOutcome where
  | done (st : RState)
  | fatal (e : ResolutionError) (st : RState)
  | bound (st : RState)
deriving DecidableEq

/-- Modelled from the spec: the repository-driven orchestrator loop of
§4.5, absent from `src/`.  Each iteration consults the Decision Policy,
resolves the chosen step against the repository (aborting the run with
the `ResolutionError` when resolution fails), appends one memory entry
for the dispatched step and marks it completed (idempotently).  The
dispatch outcome recorded in the entry is abstracted: the claim proved
against this model (C5) only exercises the resolution-failure path,
which aborts before any dispatch. -/
def run_resolver (sim : String → String → ℚ) (repo : List GlobalAction)
    (orc : Nat → Option String) : Nat → Nat → RState → ResolverOutcome
  | 0, _, st => ResolverOutcome.bound st
  | fuel + 1, k, st =>
    match spec_decide st.steps st.completed_steps st.memory (orc k) with
    | none => ResolverOutcome.done st
    | some step =>
      match resolve_action sim step repo with
      | Except.error e => ResolverOutcome.fatal e st
      | Except.ok a =>
        let entry : ExecutionMemoryDict :=
          { action := step, observation := Observation.results [],
            feedback := "Resolved to action: " ++ a.action }
        let completed_steps :=
          if step ∈ st.completed_steps then st.completed_steps
          else st.completed_steps ++ [step]
        run_resolver sim repo orc fuel (k + 1)
          { st with memory := st.memory ++ [entry], completed_steps := completed_steps }

/-- Modelled from the spec: the initial WorkflowState of a
repository-driven run — steps parsed once from the SOP document, empty
`completedSteps` and `memory`. -/
def init_rstate (sop : String) : RState :=
  { steps := parse_sop_steps sop, completed_steps := [], memory := [] }

/-! ## Predicates and concrete probes used by the theorems -/

/-- The decision response falls into the exception branch of
`intelligent_step_selection_node`: the generate call raised, or the
response is not parseable as a JSON object (so `json.loads` or the
subsequent `.get` raises). -/
def response_unparseable : Option String → Bool
  | none => true
  | some raw =>
    match json_loads (py_strip raw) with
    | some (Json.obj _) => false
    | _ => true

/-- The execution response falls into the exception branch of
`llm_tool_execution_node`. -/
def exec_fails : ExecResp → Bool
  | ExecResp.ok _ _ => false
  | ExecResp.fail _ => true

/-- A run outcome is sound: normal completion carries
`workflow_complete = true` (exceeding the bound is the
`GraphRecursionError` abort). -/
def run_ok : RunResult → Prop
  | RunResult.complete st => st.workflow_complete = true
  | RunResult.bound_exceeded _ => True

/-- The five tool names known to `LLMTools.execute_tool`. -/
def known_tools : List String :=
  ["ask_user_input", "show_message_to_user", "api_call", "create_ticket",
   "send_notification"]

/-- An oracle whose every call fails (generate raises / malformed
output): the always-fallback behaviour of the claims about oracle
failure. -/
def fail_oracle : OracleBehavior :=
  { sel := fun _ => none, exec := fun _ => ExecResp.fail "boom", now := fun _ => "T" }

/-- An oracle that, on its second selection (k = 1), returns a valid JSON
decision re-selecting step "A" (which is completed by then), and
otherwise fails. -/
def repick_oracle : OracleBehavior :=
  { sel := fun k => if k = 1 then some "\x7b\"next_step\": \"A\"\x7d" else none
    exec := fun _ => ExecResp.fail "boom"
    now := fun _ => "T" }

/-- A workflow state as it stands at a selection node after
initialisation: steps `["A", "B"]` parsed, nothing completed, empty
memory. -/
def sel_probe_state : State :=
  { sop_workflow := "A\nB"
    execution_memory := []
    global_action_repository := drive_gar
    current_step := ""
    available_steps := ["A", "B"]
    completed_steps := []
    workflow_complete := false
    tool_results := none
    user_context := {}
    required_tools := Json.arr [] }

/-- A mid-run workflow state: "Check status" has been dispatched (with a
failing oracle) and completed, one memory entry exists. -/
def c7_probe_state : State :=
  { sop_workflow := "Check status\nNotify if delayed"
    execution_memory :=
      [{ action := "Check status", observation := Observation.errorText "Error: boom",
         feedback := "completed_with_error" }]
    global_action_repository := drive_gar
    current_step := "Check status"
    available_steps := ["Check status", "Notify if delayed"]
    completed_steps := ["Check status"]
    workflow_complete := false
    tool_results := none
    user_context := {}
    required_tools := Json.arr [] }

/-- Oracle response whose JSON object is surrounded by free text. -/
def c7_response : String :=
  "Here is my plan: \x7b\"next_step\": \"Check status\"\x7d"

/-- A well-formed oracle decision carrying the sentinel. -/
def wc_response : String := "\x7b\"next_step\": \"WORKFLOW_COMPLETE\"\x7d"

/-- A well-formed oracle decision selecting step "B". -/
def pick_b_response : String := "\x7b\"next_step\": \"B\"\x7d"

/-! ## Basic lemmas about the graph nodes -/

theorem init_steps_of_ne (st : State) (h : st.available_steps ≠ []) :
    init_steps st = st := by
  simp [init_steps, h]

theorem init_steps_execution_memory (st : State) :
    (init_steps st).execution_memory = st.execution_memory := by
  unfold init_steps; split <;> rfl

theorem sel_execution_memory (resp : Option String) (st : State) :
    (intelligent_step_selection_node resp st).execution_memory = st.execution_memory := by
  simp only [intelligent_step_selection_node]
  split
  · exact init_steps_execution_memory st
  · split
    · split <;> exact init_steps_execution_memory st
    · exact init_steps_execution_memory st
    · exact init_steps_execution_memory st

theorem sel_available_steps (resp : Option String) (st : State) :
    (intelligent_step_selection_node resp st).available_steps =
      (init_steps st).available_steps := by
  simp only [intelligent_step_selection_node]
  split
  · rfl
  · split
    · split <;> rfl
    · rfl
    · rfl

theorem exec_execution_memory (resp : ExecResp) (now : String) (st : State) :
    ∃ e, (llm_tool_execution_node resp now st).execution_memory =
      st.execution_memory ++ [e] := by
  cases resp <;> exact ⟨_, rfl⟩

theorem exec_available_steps (resp : ExecResp) (now : String) (st : State) :
    (llm_tool_execution_node resp now st).available_steps = st.available_steps := by
  cases resp <;> rfl

theorem exec_workflow_complete (resp : ExecResp) (now : String) (st : State) :
    (llm_tool_execution_node resp now st).workflow_complete = st.workflow_complete := by
  cases resp <;> rfl

theorem exec_completed_steps (resp : ExecResp) (now : String) (st : State) :
    (llm_tool_execution_node resp now st).completed_steps =
      if st.current_step ∈ st.completed_steps then st.completed_steps
      else st.completed_steps ++ [st.current_step] := by
  cases resp <;> rfl

theorem decode_fallback_of_unparseable (avail : List String) (resp : Option String)
    (h : response_unparseable resp = true) :
    decode_selection avail resp = SelDecision.fallback := by
  cases resp with
  | none => rfl
  | some raw =>
    simp only [response_unparseable] at h
    simp only [decode_selection]
    cases hj : json_loads (py_strip raw) with
    | none => rfl
    | some j =>
      cases j <;> simp_all

theorem decode_adopt_mem (avail : List String) (resp : Option String) (s : String)
    (tools : Json) (h : decode_selection avail resp = SelDecision.adopt s tools) :
    s ∈ avail := by
  cases resp with
  | none => exact absurd h (by simp [decode_selection])
  | some raw =>
    simp only [decode_selection] at h
    split at h
    · split at h
      · split at h
        · exact absurd h (by simp)
        · rename_i hcond
          push_neg at hcond
          injection h with h1 h2
          subst h1
          exact hcond.2
      all_goals exact absurd h (by simp)
    · exact absurd h (by simp)

theorem sel_complete_of_all_done (resp : Option String) (st : State)
    (hne : st.available_steps ≠ [])
    (hlen : st.available_steps.length ≤ st.completed_steps.length) :
    intelligent_step_selection_node resp st = { st with workflow_complete := true } := by
  simp [intelligent_step_selection_node, init_steps_of_ne st hne, hlen]

theorem sel_fallback_select (resp : Option String) (st : State) (r : String)
    (rest : List String) (hne : st.available_steps ≠ [])
    (hlen : st.completed_steps.length < st.available_steps.length)
    (hresp : response_unparseable resp = true)
    (hrem : remaining_steps st.available_steps st.completed_steps = r :: rest) :
    intelligent_step_selection_node resp st =
      { st with current_step := r, required_tools := Json.arr [],
                workflow_complete := false } := by
  simp [intelligent_step_selection_node, init_steps_of_ne st hne, Nat.not_le.mpr hlen,
    decode_fallback_of_unparseable _ _ hresp, hrem]

theorem sel_fallback_complete (resp : Option String) (st : State)
    (hne : st.available_steps ≠ [])
    (hlen : st.completed_steps.length < st.available_steps.length)
    (hresp : response_unparseable resp = true)
    (hrem : remaining_steps st.available_steps st.completed_steps = []) :
    intelligent_step_selection_node resp st = { st with workflow_complete := true } := by
  simp [intelligent_step_selection_node, init_steps_of_ne st hne, Nat.not_le.mpr hlen,
    decode_fallback_of_unparseable _ _ hresp, hrem]

theorem sel_complete_of_signal (resp : Option String) (st : State)
    (hne : st.available_steps ≠ [])
    (hlen : st.completed_steps.length < st.available_steps.length)
    (hdec : decode_selection st.available_steps resp = SelDecision.complete_signal) :
    intelligent_step_selection_node resp st = { st with workflow_complete := true } := by
  simp [intelligent_step_selection_node, init_steps_of_ne st hne, Nat.not_le.mpr hlen, hdec]

theorem sel_adopt (resp : Option String) (st : State) (s : String) (tools : Json)
    (hne : st.available_steps ≠ [])
    (hlen : st.completed_steps.length < st.available_steps.length)
    (hdec : decode_selection st.available_steps resp = SelDecision.adopt s tools) :
    intelligent_step_selection_node resp st =
      { st with current_step := s, required_tools := tools, workflow_complete := false } := by
  simp [intelligent_step_selection_node, init_steps_of_ne st hne, Nat.not_le.mpr hlen, hdec]

theorem sel_current_mem (resp : Option String) (st : State)
    (h : (intelligent_step_selection_node resp st).workflow_complete = false) :
    (intelligent_step_selection_node resp st).current_step ∈
      (intelligent_step_selection_node resp st).available_steps := by
  revert h
  simp only [intelligent_step_selection_node]
  split
  · intro h; simp at h
  · split
    · split
      · intro h; simp at h
      · next r tail heq =>
        intro _
        show r ∈ (init_steps st).available_steps
        have hr : r ∈ remaining_steps (init_steps st).available_steps
            (init_steps st).completed_steps := by
          rw [heq]; exact List.mem_cons_self _ _
        exact List.mem_of_mem_filter hr
    · intro h; simp at h
    · next s tools hdec =>
      intro _
      show s ∈ (init_steps st).available_steps
      exact decode_adopt_mem _ _ _ _ hdec

/-! ## List lemmas about the fallback over a duplicate-free SOP -/

theorem remaining_steps_take (L : List String) (hnd : L.Nodup) :
    ∀ m, remaining_steps L (L.take m) = L.drop m := by
  induction L with
  | nil => intro m; simp [remaining_steps]
  | cons a t ih =>
    intro m
    have ha : a ∉ t := (List.nodup_cons.mp hnd).1
    have ht : t.Nodup := (List.nodup_cons.mp hnd).2
    cases m with
    | zero =>
      simp only [List.take_zero, List.drop_zero, remaining_steps]
      simp [List.filter_eq_self]
    | succ m =>
      simp only [List.take_succ_cons, List.drop_succ_cons]
      show (a :: t).filter (fun s => decide (s ∉ a :: t.take m)) = t.drop m
      rw [List.filter_cons]
      have h1 : (decide (a ∉ a :: t.take m)) = false := by simp
      rw [h1]
      simp only [Bool.false_eq_true, if_false]
      have h2 : t.filter (fun s => decide (s ∉ a :: t.take m)) =
          t.filter (fun s => decide (s ∉ t.take m)) := by
        refine List.filter_congr ?_
        intro x hx
        have hxa : x ≠ a := fun hxa => ha (hxa ▸ hx)
        simp [List.mem_cons, hxa]
      rw [h2]
      exact ih ht m

theorem getElem_not_mem_take (L : List String) (m : Nat) (hm : m < L.length)
    (hnd : L.Nodup) : L[m] ∉ L.take m := by
  have hdrop : L.drop m = L[m] :: L.drop (m + 1) := List.drop_eq_getElem_cons hm
  have hmem : L[m] ∈ remaining_steps L (L.take m) := by
    rw [remaining_steps_take L hnd m, hdrop]
    exact List.mem_cons_self _ _
  have := List.of_mem_filter hmem
  exact of_decide_eq_true this

theorem take_snoc_getElem (L : List String) (m : Nat) (hm : m < L.length) :
    L.take m ++ [L[m]] = L.take (m + 1) := by
  rw [List.take_succ, List.getElem?_eq_getElem hm]
  rfl

/-! ## Run-level helper lemmas -/

theorem run_memory_aux (orc : OracleBehavior) :
    ∀ fuel k st,
      (run_from orc fuel k st).1.state.execution_memory.length =
        st.execution_memory.length + (run_from orc fuel k st).2.length := by
  intro fuel
  induction fuel using Nat.strong_induction_on with
  | _ fuel ih =>
    intro k st
    match fuel with
    | 0 => simp [run_from, RunResult.state]
    | 1 =>
      simp only [run_from]
      split
      · simp [RunResult.state, sel_execution_memory]
      · simp [RunResult.state, sel_execution_memory]
    | (f + 2) =>
      simp only [run_from]
      split
      · simp [RunResult.state, sel_execution_memory]
      · have h := ih f (by omega) (k + 1)
          (llm_tool_execution_node (orc.exec k) (orc.now k)
            (intelligent_step_selection_node (orc.sel k) st))
        obtain ⟨e, he⟩ := exec_execution_memory (orc.exec k) (orc.now k)
          (intelligent_step_selection_node (orc.sel k) st)
        rw [he, sel_execution_memory] at h
        simp only [List.length_append, List.length_cons, List.length_nil] at h ⊢
        omega

theorem run_trace_subset_aux (orc : OracleBehavior) :
    ∀ fuel k st x, x ∈ (run_from orc fuel k st).2 →
      x ∈ (init_steps st).available_steps := by
  intro fuel
  induction fuel using Nat.strong_induction_on with
  | _ fuel ih =>
    intro k st x hx
    match fuel, hx with
    | 0, hx => simp [run_from] at hx
    | 1, hx =>
      rw [run_from] at hx
      revert hx
      split
      · intro hx; simp at hx
      · intro hx; simp at hx
    | (f + 2), hx =>
      rw [run_from] at hx
      revert hx
      split
      · intro hx; simp at hx
      · next hncomp =>
        intro hx
        have hcomp : (intelligent_step_selection_node (orc.sel k) st).workflow_complete
            = false := by
          revert hncomp
          cases (intelligent_step_selection_node (orc.sel k) st).workflow_complete <;> simp
        have hcur := sel_current_mem (orc.sel k) st hcomp
        rw [sel_available_steps] at hcur
        simp only [List.mem_cons] at hx
        rcases hx with rfl | hx
        · exact hcur
        · have hsub := ih f (by omega) (k + 1)
            (llm_tool_execution_node (orc.exec k) (orc.now k)
              (intelligent_step_selection_node (orc.sel k) st)) x hx
          have hne : (llm_tool_execution_node (orc.exec k) (orc.now k)
              (intelligent_step_selection_node (orc.sel k) st)).available_steps ≠ [] := by
            rw [exec_available_steps, sel_available_steps]
            exact List.ne_nil_of_mem hcur
          rw [init_steps_of_ne _ hne, exec_available_steps, sel_available_steps] at hsub
          exact hsub

theorem run_from_complete (orc : OracleBehavior) (fuel k : Nat) (st : State)
    (hcomp : (intelligent_step_selection_node (orc.sel k) st).workflow_complete = true) :
    run_from orc (fuel + 1) k st =
      (RunResult.complete (intelligent_step_selection_node (orc.sel k) st), []) := by
  rw [run_from.eq_def]
  simp [hcomp]

theorem run_from_step (orc : OracleBehavior) (f k : Nat) (st : State)
    (hcomp : (intelligent_step_selection_node (orc.sel k) st).workflow_complete = false) :
    run_from orc (f + 2) k st =
      ((run_from orc f (k + 1) (llm_tool_execution_node (orc.exec k) (orc.now k)
          (intelligent_step_selection_node (orc.sel k) st))).1,
        (intelligent_step_selection_node (orc.sel k) st).current_step ::
          (run_from orc f (k + 1) (llm_tool_execution_node (orc.exec k) (orc.now k)
            (intelligent_step_selection_node (orc.sel k) st))).2) := by
  simp only [run_from]
  simp [hcomp]

/-- With an oracle whose every decision response is unparseable, the run
walks the duplicate-free step list `L` in order: starting from a state
whose completed prefix is `L.take m`, it dispatches exactly
`L.drop m` (in order) and completes with all steps done and one memory
entry appended per dispatched step. -/
theorem run_fail_invariant (orc : OracleBehavior)
    (hsel : ∀ k, response_unparseable (orc.sel k) = true)
    (L : List String) (hnd : L.Nodup) (hL : L ≠ []) :
    ∀ fuel m k st, st.available_steps = L → st.completed_steps = L.take m →
      m ≤ L.length → 2 * (L.length - m) + 1 ≤ fuel →
      ∃ st', run_from orc fuel k st = (RunResult.complete st', L.drop m) ∧
        st'.completed_steps = L ∧
        st'.execution_memory.length = st.execution_memory.length + (L.length - m) := by
  intro fuel
  induction fuel using Nat.strong_induction_on with
  | _ fuel ih =>
    intro m k st hav hcomp hm hfuel
    rcases Nat.lt_or_ge m L.length with hlt | hge
    · -- a step remains: the fallback dispatches L[m]
      match fuel with
      | 0 => omega
      | 1 => omega
      | (f + 2) =>
        have hne : st.available_steps ≠ [] := by rw [hav]; exact hL
        have hlen : st.completed_steps.length < st.available_steps.length := by
          rw [hav, hcomp, List.length_take]
          omega
        have hrem : remaining_steps st.available_steps st.completed_steps =
            L[m] :: L.drop (m + 1) := by
          rw [hav, hcomp, remaining_steps_take L hnd m, List.drop_eq_getElem_cons hlt]
        have hst1 : intelligent_step_selection_node (orc.sel k) st =
            { st with current_step := L[m], required_tools := Json.arr [],
                      workflow_complete := false } :=
          sel_fallback_select _ _ _ _ hne hlen (hsel k) hrem
        have hcompfalse :
            (intelligent_step_selection_node (orc.sel k) st).workflow_complete = false := by
          rw [hst1]
        set st2 := llm_tool_execution_node (orc.exec k) (orc.now k)
          (intelligent_step_selection_node (orc.sel k) st) with hst2def
        have hav2 : st2.available_steps = L := by
          rw [hst2def, exec_available_steps, hst1]
          exact hav
        have hcomp2 : st2.completed_steps = L.take (m + 1) := by
          rw [hst2def, exec_completed_steps, hst1]
          show (if L[m] ∈ st.completed_steps then st.completed_steps
            else st.completed_steps ++ [L[m]]) = L.take (m + 1)
          rw [hcomp, if_neg (getElem_not_mem_take L m hlt hnd)]
          exact take_snoc_getElem L m hlt
        have hmem2 : st2.execution_memory.length = st.execution_memory.length + 1 := by
          obtain ⟨e, he⟩ := exec_execution_memory (orc.exec k) (orc.now k)
            (intelligent_step_selection_node (orc.sel k) st)
          rw [hst2def, he, sel_execution_memory]
          simp
        obtain ⟨st', hrun', hcomp', hmem'⟩ := ih f (by omega) (m + 1) (k + 1) st2 hav2
          hcomp2 hlt (by omega)
        refine ⟨st', ?_, hcomp', ?_⟩
        · rw [run_from_step orc f k st hcompfalse, ← hst2def, hrun', hst1]
          show (RunResult.complete st', L[m] :: L.drop (m + 1)) =
            (RunResult.complete st', L.drop m)
          rw [← List.drop_eq_getElem_cons hlt]
        · rw [hmem', hmem2]
          omega
    · -- all steps completed: the selection emits Complete
      have hmeq : m = L.length := le_antisymm hm hge
      subst hmeq
      match fuel with
      | 0 => omega
      | (f + 1) =>
        have hne : st.available_steps ≠ [] := by rw [hav]; exact hL
        have hlen : st.available_steps.length ≤ st.completed_steps.length := by
          rw [hav, hcomp]
          simp [List.length_take]
        have hst1 := sel_complete_of_all_done (orc.sel k) st hne hlen
        have hcompt :
            (intelligent_step_selection_node (orc.sel k) st).workflow_complete = true := by
          rw [hst1]
        rw [run_from_complete orc f k st hcompt, hst1]
        refine ⟨{ st with workflow_complete := true }, ?_, ?_, ?_⟩
        · rw [List.drop_length]
        · show st.completed_steps = L
          rw [hcomp, List.take_length]
        · show st.execution_memory.length =
            st.execution_memory.length + (L.length - L.length)
          omega

/-! ## Dispatcher-level helper lemmas -/

theorem exec_marks_completed (resp : ExecResp) (now : String) (st : State) :
    st.current_step ∈ (llm_tool_execution_node resp now st).completed_steps := by
  rw [exec_completed_steps]
  split
  · assumption
  · simp

theorem execute_tool_unknown (t : LLMTools) (now tool_name : String) (ps : ToolParams)
    (h : tool_name ∉ known_tools) :
    t.execute_tool now tool_name ps =
      (ToolResult.unknownTool ("Unknown tool: " ++ tool_name), t) := by
  simp only [known_tools, List.mem_cons, List.not_mem_nil, or_false, not_or] at h
  obtain ⟨h1, h2, h3, h4, h5⟩ := h
  simp [LLMTools.execute_tool, h1, h2, h3, h4, h5]

theorem execute_tool_tickets (t : LLMTools) (now tool_name : String) (ps : ToolParams)
    (h : tool_name ≠ "create_ticket") :
    ((t.execute_tool now tool_name ps).2).mock_tickets = t.mock_tickets := by
  simp only [LLMTools.execute_tool]
  split_ifs <;> rfl

theorem run_tool_calls_names (now : String) :
    ∀ (calls : List ToolCall) (tools : LLMTools) (uc : UserContext),
      ((run_tool_calls now tools uc calls).1).map (fun r => r.tool_name) =
        calls.map (fun c => c.tool_name) := by
  intro calls
  induction calls with
  | nil => intro tools uc; rfl
  | cons c rest ih =>
    intro tools uc
    simp only [run_tool_calls, List.map_cons]
    rw [ih]

theorem run_tool_calls_length (now : String) (calls : List ToolCall) (tools : LLMTools)
    (uc : UserContext) :
    ((run_tool_calls now tools uc calls).1).length = calls.length := by
  have h := congrArg List.length (run_tool_calls_names now calls tools uc)
  simpa using h

theorem run_tool_calls_unknown (now : String) :
    ∀ (calls : List ToolCall) (tools : LLMTools) (uc : UserContext)
      (r : ToolCallRecord), r ∈ (run_tool_calls now tools uc calls).1 →
      r.tool_name ∉ known_tools →
      r.result = ToolResult.unknownTool ("Unknown tool: " ++ r.tool_name) := by
  intro calls
  induction calls with
  | nil => intro tools uc r hr; simp [run_tool_calls] at hr
  | cons c rest ih =>
    intro tools uc r hr hname
    simp only [run_tool_calls, List.mem_cons] at hr
    rcases hr with rfl | hr
    · show (tools.execute_tool now c.tool_name c.parameters).1 =
        ToolResult.unknownTool ("Unknown tool: " ++ c.tool_name)
      rw [execute_tool_unknown tools now c.tool_name c.parameters hname]
    · exact ih _ _ r hr hname

theorem run_tool_calls_tickets (now : String) :
    ∀ (calls : List ToolCall) (tools : LLMTools) (uc : UserContext),
      (∀ c ∈ calls, c.tool_name ≠ "create_ticket") →
      ((run_tool_calls now tools uc calls).2.1).mock_tickets = tools.mock_tickets := by
  intro calls
  induction calls with
  | nil => intro tools uc _; rfl
  | cons c rest ih =>
    intro tools uc h
    simp only [run_tool_calls]
    rw [ih _ _ (fun p hp => h p (List.mem_cons_of_mem c hp))]
    exact execute_tool_tickets tools now c.tool_name c.parameters
      (h c (List.mem_cons_self c rest))

theorem run_tool_calls_append (now : String) :
    ∀ (pre cs : List ToolCall) (tools : LLMTools) (uc : UserContext),
      run_tool_calls now tools uc (pre ++ cs) =
        ((run_tool_calls now tools uc pre).1 ++
            (run_tool_calls now (run_tool_calls now tools uc pre).2.1
              (run_tool_calls now tools uc pre).2.2 cs).1,
          (run_tool_calls now (run_tool_calls now tools uc pre).2.1
            (run_tool_calls now tools uc pre).2.2 cs).2) := by
  intro pre
  induction pre with
  | nil => intro cs tools uc; simp [run_tool_calls]
  | cons c rest ih =>
    intro cs tools uc
    simp only [List.cons_append, run_tool_calls]
    simp only [List.append_eq]
    rw [ih]

/-! ## Claim theorems -/

/-- C4 (confirmed): for every SOP, every oracle behaviour (including
always-invalid or always-raising output) and every fuel value modelling
the configured `recursion_limit`, the run is total and reaches either
normal completion — in which case `workflow_complete = true` — or the
`GraphRecursionError` abort (`bound_exceeded`); the number of dispatched
loop bodies is bounded by half the iteration bound, since each loop body
costs two graph super-steps.  It never loops unboundedly (`run_from` is
a total function of its fuel). -/
theorem c4_bounded_termination (orc : OracleBehavior) (fuel k : Nat) (st : State) :
    2 * (run_from orc fuel k st).2.length ≤ fuel ∧
      run_ok (run_from orc fuel k st).1 := by
  induction fuel using Nat.strong_induction_on generalizing k st with
  | _ fuel ih =>
    match fuel with
    | 0 => exact ⟨by simp [run_from], by simp [run_from, run_ok]⟩
    | 1 =>
      simp only [run_from]
      split
      · next hcomp => exact ⟨by simp, hcomp⟩
      · exact ⟨by simp, trivial⟩
    | (f + 2) =>
      simp only [run_from]
      split
      · next hcomp => exact ⟨by simp, hcomp⟩
      · have h := ih f (by omega) (k + 1)
          (llm_tool_execution_node (orc.exec k) (orc.now k)
            (intelligent_step_selection_node (orc.sel k) st))
        refine ⟨?_, h.2⟩
        have h1 := h.1
        simp only [List.length_cons]
        omega

/-- C8 (confirmed): the execution memory is append-only — the selection
node never touches it, every invocation of the tool-execution node
(success or failure path) appends exactly one entry, and over a whole
run the final memory length is the initial length plus the number of
dispatched iterations (in particular it never decreases). -/
theorem c8_memory_append_only :
    (∀ (resp : Option String) (st : State),
      (intelligent_step_selection_node resp st).execution_memory =
        st.execution_memory) ∧
    (∀ (resp : ExecResp) (now : String) (st : State),
      ∃ e, (llm_tool_execution_node resp now st).execution_memory =
        st.execution_memory ++ [e]) ∧
    (∀ (orc : OracleBehavior) (fuel k : Nat) (st : State),
      (run_from orc fuel k st).1.state.execution_memory.length =
        st.execution_memory.length + (run_from orc fuel k st).2.length) :=
  ⟨sel_execution_memory, exec_execution_memory, fun orc => run_memory_aux orc⟩

/-- C1 counterexample: the oracle CAN cause dispatch of an
already-completed step.  With `repick_oracle` (whose second decision
validly re-selects "A") the run from SOP "A\nB" dispatches
["A", "A", "B"] — a repeated step — and the state handed to the second
tool execution has `current_step = "A"` already a member of
`completed_steps`, refuting "the step handed to tool execution ... is
not already in completedSteps". -/
theorem c1_counterexample :
    (run_from repick_oracle recursion_limit 0 (initial_state "A\nB")).2 =
      ["A", "A", "B"] ∧
    ¬ (run_from repick_oracle recursion_limit 0 (initial_state "A\nB")).2.Nodup ∧
    (intelligent_step_selection_node (repick_oracle.sel 1)
        (llm_tool_execution_node (repick_oracle.exec 0) (repick_oracle.now 0)
          (intelligent_step_selection_node (repick_oracle.sel 0)
            (initial_state "A\nB")))).workflow_complete = false ∧
    (intelligent_step_selection_node (repick_oracle.sel 1)
        (llm_tool_execution_node (repick_oracle.exec 0) (repick_oracle.now 0)
          (intelligent_step_selection_node (repick_oracle.sel 0)
            (initial_state "A\nB")))).current_step ∈
      (intelligent_step_selection_node (repick_oracle.sel 1)
        (llm_tool_execution_node (repick_oracle.exec 0) (repick_oracle.now 0)
          (intelligent_step_selection_node (repick_oracle.sel 0)
            (initial_state "A\nB")))).completed_steps :=
  ⟨by decide, by decide, by decide, by decide⟩

/-- C1 amended: every step handed to tool execution in a run started
from `main`'s initial state is an element of the parsed SOP steps —
regardless of the oracle, which can never cause selection of a step
outside the SOP, and cannot cause non-termination because of the
iteration bound (C4).  The oracle CAN, however, re-select an
already-completed step (the counterexample), so "not already in
completedSteps" is dropped. -/
theorem c1_dispatched_steps_in_sop (orc : OracleBehavior) (fuel k : Nat) (sop x : String)
    (hx : x ∈ (run_from orc fuel k (initial_state sop)).2) :
    x ∈ parse_sop_steps sop := by
  have h := run_trace_subset_aux orc fuel k (initial_state sop) x hx
  rwa [show (init_steps (initial_state sop)).available_steps = parse_sop_steps sop from by
    simp [init_steps, initial_state]] at h

theorem c1_dispatched_steps_in_sop_witness :
    "Check status" ∈ (run_from fail_oracle 20 0
      (initial_state "Check status\nNotify if delayed")).2 ∧
    "Check status" ∈ parse_sop_steps "Check status\nNotify if delayed" :=
  ⟨by decide,
    c1_dispatched_steps_in_sop fail_oracle 20 0 "Check status\nNotify if delayed"
      "Check status" (by decide)⟩

/-- C2 counterexample: a successfully parsed decision whose `next_step`
is the sentinel "WORKFLOW_COMPLETE" makes the node emit Complete even
though incomplete steps remain (and it does not select the first
incomplete step "A"), refuting "selects the first element of steps not
already in completedSteps ... and emits Complete only when no such
element exists". -/
theorem c2_counterexample :
    json_loads (py_strip wc_response) =
      some (Json.obj [("next_step", Json.str "WORKFLOW_COMPLETE")]) ∧
    remaining_steps sel_probe_state.available_steps sel_probe_state.completed_steps =
      ["A", "B"] ∧
    (intelligent_step_selection_node (some wc_response) sel_probe_state).workflow_complete
      = true ∧
    (intelligent_step_selection_node (some wc_response) sel_probe_state).current_step
      ≠ "A" :=
  ⟨rfl, by decide, by decide, by decide⟩

/-- C2 amended: the first-incomplete fallback applies exactly to the
exception branch — the generate call raising or the response failing to
parse as a JSON object — selecting the first element of steps not in
completedSteps and emitting Complete when none exists; whereas a
successfully parsed `next_step` equal to the sentinel or not a member of
steps makes the node emit Complete directly, without the fallback. -/
theorem c2_fallback_only_on_parse_failure (resp : Option String) (st : State)
    (hne : st.available_steps ≠ [])
    (hlen : st.completed_steps.length < st.available_steps.length) :
    (response_unparseable resp = true →
      (remaining_steps st.available_steps st.completed_steps = [] →
        intelligent_step_selection_node resp st = { st with workflow_complete := true }) ∧
      (∀ r rest, remaining_steps st.available_steps st.completed_steps = r :: rest →
        intelligent_step_selection_node resp st =
          { st with current_step := r, required_tools := Json.arr [],
                    workflow_complete := false })) ∧
    (decode_selection st.available_steps resp = SelDecision.complete_signal →
      intelligent_step_selection_node resp st = { st with workflow_complete := true }) := by
  constructor
  · intro hresp
    exact ⟨fun hrem => sel_fallback_complete resp st hne hlen hresp hrem,
      fun r rest hrem => sel_fallback_select resp st r rest hne hlen hresp hrem⟩
  · intro hdec
    exact sel_complete_of_signal resp st hne hlen hdec

theorem c2_fallback_only_on_parse_failure_witness :
    intelligent_step_selection_node none sel_probe_state =
      { sel_probe_state with current_step := "A", required_tools := Json.arr [],
                             workflow_complete := false } ∧
    intelligent_step_selection_node (some wc_response) sel_probe_state =
      { sel_probe_state with workflow_complete := true } := by
  have h1 := c2_fallback_only_on_parse_failure none sel_probe_state
    (by decide) (by decide)
  have h2 := c2_fallback_only_on_parse_failure (some wc_response) sel_probe_state
    (by decide) (by decide)
  exact ⟨(h1.1 rfl).2 "A" ["B"] (by decide), h2.2 rfl⟩

/-- C3 counterexample: on a state with empty execution memory and
incomplete steps, the selection is NOT oracle-independent: there is no
empty-memory bypass in the code, so a parseable oracle decision for "B"
yields "B" while a failing oracle yields `steps[0] = "A"`. -/
theorem c3_counterexample :
    sel_probe_state.execution_memory = [] ∧
    sel_probe_state.completed_steps.length < sel_probe_state.available_steps.length ∧
    (intelligent_step_selection_node (some pick_b_response) sel_probe_state).current_step
      = "B" ∧
    (intelligent_step_selection_node none sel_probe_state).current_step = "A" :=
  ⟨rfl, by decide, by decide, by decide⟩

/-- C3 amended: first-step determinism holds only on oracle failure.
When nothing is completed yet (in particular on the first iteration,
where memory is empty) and the decision response is unparseable or the
generate call raised, step selection deterministically returns
`steps[0]`; with a parseable response the result follows the oracle even
on the first iteration. -/
theorem c3_first_step_on_oracle_failure (resp : Option String) (st : State)
    (r : String) (rest : List String)
    (hmem : st.execution_memory = [])
    (hcomp : st.completed_steps = [])
    (hav : st.available_steps = r :: rest)
    (hresp : response_unparseable resp = true) :
    (intelligent_step_selection_node resp st).current_step = r ∧
    (intelligent_step_selection_node resp st).workflow_complete = false := by
  have hne : st.available_steps ≠ [] := by rw [hav]; simp
  have hlen : st.completed_steps.length < st.available_steps.length := by
    rw [hav, hcomp]; simp
  have hrem : remaining_steps st.available_steps st.completed_steps = r :: rest := by
    rw [hav, hcomp]
    simp [remaining_steps, List.filter_eq_self]
  rw [sel_fallback_select resp st r rest hne hlen hresp hrem]
  exact ⟨rfl, rfl⟩

theorem c3_first_step_on_oracle_failure_witness :
    (intelligent_step_selection_node none sel_probe_state).current_step = "A" ∧
    (intelligent_step_selection_node none sel_probe_state).workflow_complete = false :=
  c3_first_step_on_oracle_failure none sel_probe_state "A" ["B"] rfl rfl rfl rfl

/-- Idempotence of the available-steps initialisation. -/
theorem init_steps_idem (st : State) : init_steps (init_steps st) = init_steps st := by
  by_cases h : st.available_steps = []
  · by_cases h2 : parse_sop_steps st.sop_workflow = []
    · simp [init_steps, h, h2]
    · simp [init_steps, h, h2]
  · simp [init_steps, h]

/-- The selection node initialises the state itself, so pre-applying the
initialisation changes nothing. -/
theorem sel_init_steps (resp : Option String) (st : State) :
    intelligent_step_selection_node resp (init_steps st) =
      intelligent_step_selection_node resp st := by
  simp only [intelligent_step_selection_node]
  rw [init_steps_idem]

/-- Re-running from an initialised state coincides with running from the
raw state, for at least one unit of fuel. -/
theorem run_from_succ_init (orc : OracleBehavior) (f k : Nat) (st : State) :
    run_from orc (f + 1) k (init_steps st) = run_from orc (f + 1) k st := by
  conv_lhs => rw [run_from.eq_def]
  conv_rhs => rw [run_from.eq_def]
  simp only [sel_init_steps]

/-- C6 (confirmed): with an oracle whose every decision response is
unparseable (the generate call raises or yields malformed text) and
whose every execution response likewise fails, the run from `main`'s
initial state dispatches the (duplicate-free) parsed SOP steps in exact
original order with no repeats, completes, marks exactly those steps
completed in that order, and ends with one memory entry per step —
given fuel covering the bound (the scenario needs 5 ≤ 20). -/
theorem c6_fallback_selects_in_sop_order (orc : OracleBehavior) (sop : String)
    (fuel : Nat)
    (hsel : ∀ k, response_unparseable (orc.sel k) = true)
    (hexec : ∀ k, exec_fails (orc.exec k) = true)
    (hnd : (parse_sop_steps sop).Nodup)
    (hfuel : 2 * (parse_sop_steps sop).length + 1 ≤ fuel) :
    ∃ st', run_from orc fuel 0 (initial_state sop) =
        (RunResult.complete st', parse_sop_steps sop) ∧
      st'.completed_steps = parse_sop_steps sop ∧
      st'.execution_memory.length = (parse_sop_steps sop).length := by
  match fuel, hfuel with
  | (f + 1), hfuel =>
    by_cases hL : parse_sop_steps sop = []
    · have hsel0 : intelligent_step_selection_node (orc.sel 0) (initial_state sop) =
          { initial_state sop with available_steps := [], completed_steps := [],
                                   workflow_complete := true } := by
        simp [intelligent_step_selection_node, init_steps, initial_state, hL]
      have hcompt : (intelligent_step_selection_node (orc.sel 0)
          (initial_state sop)).workflow_complete = true := by rw [hsel0]
      rw [run_from_complete orc f 0 _ hcompt, hsel0, hL]
      exact ⟨_, rfl, rfl, rfl⟩
    · have hav : (init_steps (initial_state sop)).available_steps =
          parse_sop_steps sop := by
        simp [init_steps, initial_state]
      have hcomp : (init_steps (initial_state sop)).completed_steps =
          (parse_sop_steps sop).take 0 := by
        simp [init_steps, initial_state]
      obtain ⟨st', hrun, hc, hmem⟩ := run_fail_invariant orc hsel (parse_sop_steps sop)
        hnd hL (f + 1) 0 0 (init_steps (initial_state sop)) hav hcomp (by omega)
        (by omega)
      rw [run_from_succ_init] at hrun
      refine ⟨st', ?_, hc, ?_⟩
      · rw [hrun, List.drop_zero]
      · rw [hmem, init_steps_execution_memory]
        simp [initial_state]

theorem c6_fallback_selects_in_sop_order_witness :
    ∃ st', run_from fail_oracle 20 0
        (initial_state "Check status\nNotify if delayed") =
        (RunResult.complete st', ["Check status", "Notify if delayed"]) ∧
      st'.completed_steps = ["Check status", "Notify if delayed"] ∧
      st'.execution_memory.length = 2 :=
  c6_fallback_selects_in_sop_order fail_oracle "Check status\nNotify if delayed" 20
    (fun _ => rfl) (fun _ => rfl) (by decide) (by decide)

/-- C7 counterexample: the code applies `json.loads` to the whole
stripped response and performs no balanced-object extraction.  For a
response whose valid JSON object is preceded by free text, `json.loads`
fails — although the spec-described extraction would find the object and
parse it — and the node takes the exception fallback, selecting the
first incomplete step ("Notify if delayed") instead of adopting the
embedded decision ("Check status"). -/
theorem c7_counterexample :
    json_loads (py_strip c7_response) = none ∧
    spec_extract_first_json_object c7_response =
      some "\x7b\"next_step\": \"Check status\"\x7d" ∧
    (spec_extract_first_json_object c7_response).bind json_loads =
      some (Json.obj [("next_step", Json.str "Check status")]) ∧
    (intelligent_step_selection_node (some c7_response) c7_probe_state).current_step =
      "Notify if delayed" :=
  ⟨rfl, rfl, rfl, by decide⟩

/-- C7 amended: no extraction is performed — the decision branch other
than the exception fallback is taken exactly when the whole stripped
response is a single JSON object under `json.loads`; a valid JSON object
preceded or followed by free text is a parse failure handled by the
fallback. -/
theorem c7_whole_response_must_be_json (avail : List String) (raw : String) :
    decode_selection avail (some raw) ≠ SelDecision.fallback ↔
      ∃ kvs, json_loads (py_strip raw) = some (Json.obj kvs) := by
  constructor
  · intro h
    simp only [decode_selection] at h
    cases hj : json_loads (py_strip raw) with
    | none => rw [hj] at h; simp at h
    | some j =>
      cases j with
      | obj kvs => exact ⟨kvs, rfl⟩
      | null => rw [hj] at h; simp at h
      | bool b => rw [hj] at h; simp at h
      | num n => rw [hj] at h; simp at h
      | str s => rw [hj] at h; simp at h
      | arr xs => rw [hj] at h; simp at h
  · rintro ⟨kvs, hj⟩
    simp only [decode_selection, hj]
    cases hns : (Json.getField kvs "next_step").getD (Json.str "") <;>
      simp only [hns] <;> try simp
    next s =>
      split <;> simp

/-- C5 (confirmed, spec-modelled): with an empty Action Repository, a
repository-driven run over any SOP with at least one step fails
immediately — the first iteration's resolution aborts the run with
`ResolutionError` — and the execution memory at the failure point has
zero entries. -/
theorem c5_empty_repository_resolution_error (sim : String → String → ℚ)
    (orc : Nat → Option String) (sop : String) (fuel : Nat)
    (hsop : parse_sop_steps sop ≠ []) (hfuel : 1 ≤ fuel) :
    run_resolver sim [] orc fuel 0 (init_rstate sop) =
      ResolverOutcome.fatal ResolutionError.empty_repository (init_rstate sop) ∧
    (init_rstate sop).memory.length = 0 := by
  match fuel, hfuel with
  | (f + 1), _ =>
    cases hp : parse_sop_steps sop with
    | nil => exact absurd hp hsop
    | cons a t =>
      refine ⟨?_, rfl⟩
      have hdec : spec_decide (init_rstate sop).steps (init_rstate sop).completed_steps
          (init_rstate sop).memory (orc 0) = some a := by
        simp [spec_decide, init_rstate, hp]
      rw [run_resolver.eq_def]
      simp [hdec, resolve_action]

theorem c5_empty_repository_resolution_error_witness :
    run_resolver (fun _ _ => (0 : ℚ)) [] (fun _ => none) 5 0
        (init_rstate "Check status") =
      ResolverOutcome.fatal ResolutionError.empty_repository
        (init_rstate "Check status") ∧
    (init_rstate "Check status").memory.length = 0 :=
  c5_empty_repository_resolution_error (fun _ _ => (0 : ℚ)) (fun _ => none)
    "Check status" 5 (by decide) (by decide)

/-- C9 (confirmed): dispatching a tool invocation whose name is not one
of the five known handlers returns the error result
"Unknown tool: ..." — the spec's `DispatchError("unknown tool")` — and
leaves the dispatcher state untouched (nothing is executed); within the
tool-execution node the failure is recorded into the appended
execution-memory entry, the step is still marked completed, and each
proposed call is dispatched exactly once (one result record per call, in
order — no retry). -/
theorem c9_unknown_tool_dispatch (tool_name : String) (h : tool_name ∉ known_tools) :
    (∀ (t : LLMTools) (now : String) (ps : ToolParams),
      t.execute_tool now tool_name ps =
        (ToolResult.unknownTool ("Unknown tool: " ++ tool_name), t)) ∧
    (∀ (st : State) (now : String) (calls : List ToolCall) (reasoning : String),
      st.current_step ∈
        (llm_tool_execution_node (ExecResp.ok calls reasoning) now st).completed_steps ∧
      (llm_tool_execution_node (ExecResp.ok calls reasoning) now st).execution_memory =
        st.execution_memory ++
          [{ action := st.current_step
             observation := Observation.results
               (run_tool_calls now LLMTools.init st.user_context calls).1
             feedback := "Completed using tools: " ++
               py_list_repr (calls.map (fun c => c.tool_name)) }] ∧
      ((run_tool_calls now LLMTools.init st.user_context calls).1).map
          (fun r => r.tool_name) = calls.map (fun c => c.tool_name) ∧
      ∀ r ∈ (run_tool_calls now LLMTools.init st.user_context calls).1,
        r.tool_name = tool_name →
          r.result = ToolResult.unknownTool ("Unknown tool: " ++ tool_name)) := by
  constructor
  · intro t now ps
    exact execute_tool_unknown t now tool_name ps h
  · intro st now calls reasoning
    refine ⟨exec_marks_completed _ _ _, rfl, run_tool_calls_names now calls _ _, ?_⟩
    intro r hr hrname
    have hr2 := run_tool_calls_unknown now calls LLMTools.init st.user_context r hr
      (by rw [hrname]; exact h)
    rw [hrname] at hr2
    exact hr2

theorem c9_unknown_tool_dispatch_witness :
    LLMTools.init.execute_tool "T" "frobnicate" {} =
      (ToolResult.unknownTool "Unknown tool: frobnicate", LLMTools.init) ∧
    "step X" ∈ (llm_tool_execution_node
        (ExecResp.ok [{ tool_name := "frobnicate" }] "r") "T"
        { sel_probe_state with current_step := "step X" }).completed_steps := by
  have h := c9_unknown_tool_dispatch "frobnicate" (by decide)
  exact ⟨h.1 LLMTools.init "T" {},
    (h.2 { sel_probe_state with current_step := "step X" } "T"
      [{ tool_name := "frobnicate" }] "r").1⟩

/-- C10 (confirmed): every invocation of the tool-execution node builds
its dispatcher from `LLMTools.init` (empty ticket and notification
stores), regardless of the incoming workflow state.  Hence within any
single iteration the first `create_ticket` call (no earlier
`create_ticket` among the proposed calls) yields `ticket_id = 1`, and a
`GET /tickets` api-call made before any `create_ticket` of the same
iteration observes an empty ticket list — tickets created in earlier
iterations are not visible. -/
theorem c10_fresh_dispatcher_per_iteration (st : State) (now reasoning : String)
    (pre : List ToolCall) (c : ToolCall) (rest : List ToolCall)
    (hpre : ∀ p ∈ pre, p.tool_name ≠ "create_ticket") :
    (llm_tool_execution_node (ExecResp.ok (pre ++ c :: rest) reasoning) now
        st).execution_memory =
      st.execution_memory ++
        [{ action := st.current_step
           observation := Observation.results
             (run_tool_calls now LLMTools.init st.user_context (pre ++ c :: rest)).1
           feedback := "Completed using tools: " ++
             py_list_repr ((pre ++ c :: rest).map (fun x => x.tool_name)) }] ∧
    (c.tool_name = "create_ticket" →
      ∃ (t : Ticket) (msg : String),
        ((run_tool_calls now LLMTools.init st.user_context
            (pre ++ c :: rest)).1)[pre.length]? =
          some { tool_name := c.tool_name, parameters := c.parameters,
                 result := ToolResult.ticketCreated t msg } ∧
        t.ticket_id = 1) ∧
    (∀ ep, c.tool_name = "api_call" → c.parameters.endpoint = some ep →
      c.parameters.method.getD "GET" = "GET" →
      str_contains ep "/requests/" = false → str_contains ep "/tickets" = true →
      ((run_tool_calls now LLMTools.init st.user_context
          (pre ++ c :: rest)).1)[pre.length]? =
        some { tool_name := c.tool_name, parameters := c.parameters,
               result := ToolResult.ticketsList [] }) := by
  set T := (run_tool_calls now LLMTools.init st.user_context pre).2.1 with hTdef
  have hT : T.mock_tickets = [] := by
    rw [hTdef]
    exact run_tool_calls_tickets now pre LLMTools.init st.user_context hpre
  have hlen := run_tool_calls_length now pre LLMTools.init st.user_context
  have h1 : (run_tool_calls now LLMTools.init st.user_context (pre ++ c :: rest)).1 =
      (run_tool_calls now LLMTools.init st.user_context pre).1 ++
        (run_tool_calls now T
          ((run_tool_calls now LLMTools.init st.user_context pre).2.2) (c :: rest)).1 := by
    rw [run_tool_calls_append]
  have hget : ((run_tool_calls now LLMTools.init st.user_context
      (pre ++ c :: rest)).1)[pre.length]? =
      some { tool_name := c.tool_name, parameters := c.parameters,
             result := (T.execute_tool now c.tool_name c.parameters).1 } := by
    rw [h1, List.getElem?_append_right (le_of_eq hlen), hlen, Nat.sub_self]
    simp [run_tool_calls]
  refine ⟨rfl, ?_, ?_⟩
  · intro hcname
    have hres : ∃ (t : Ticket) (msg : String),
        (T.execute_tool now c.tool_name c.parameters).1 =
          ToolResult.ticketCreated t msg ∧ t.ticket_id = 1 := by
      rw [hcname]
      exact ⟨_, _, rfl, by simp [hT]⟩
    obtain ⟨t, msg, hres1, hres2⟩ := hres
    exact ⟨t, msg, by rw [hget, hres1], hres2⟩
  · intro ep hcname hep hmeth hreq htick
    have hres : (T.execute_tool now c.tool_name c.parameters).1 =
        ToolResult.ticketsList [] := by
      rw [hcname]
      simp [LLMTools.execute_tool, LLMTools.api_call, LLMTools.mock_tickets_api,
        hep, hreq, htick, hmeth, hT]
    rw [hget, hres]

theorem c10_fresh_dispatcher_per_iteration_witness :
    ∃ (t : Ticket) (msg : String),
      ((run_tool_calls "T" LLMTools.init sel_probe_state.user_context
          ([{ tool_name := "show_message_to_user" }] ++
            ({ tool_name := "create_ticket" } : ToolCall) :: [])).1)[1]? =
        some { tool_name := "create_ticket", parameters := {},
               result := ToolResult.ticketCreated t msg } ∧
      t.ticket_id = 1 :=
  (c10_fresh_dispatcher_per_iteration sel_probe_state "T" "r"
      [{ tool_name := "show_message_to_user" }] { tool_name := "create_ticket" } []
      (by decide)).2.1 rfl

end SopWorkflow
